import Mathlib

/-!
Shallow embedding of the s3-extend gateways:
`picoboard_gateway.py` (analog scaling, frame decoding, polling cycle) and
`sonar.py` (distance timer and GPIO mode restoration).

Python float arithmetic in the scaling formulas is modelled by exact rational
arithmetic; Python's `round` (round half to even) is modelled by `pythonRound`,
and Python's `int(...)` truncation of a nonnegative float by `Rat.floor`.
Time and the GPIO echo line of the sonar are modelled by explicit traces:
each `pi.read(echo)` consumes the next element of a list of levels and each
`time.time()` consumes the next element of a list of timestamps.
-/

namespace S3Extend

/-- Python builtin `round` on an exact rational: round half to even. -/
def pythonRound (q : ℚ) : ℤ :=
  let f := q.floor
  if q - f < 1/2 then f
  else if (1/2 : ℚ) < q - f then f + 1
  else if f % 2 = 0 then f else f + 1

/-- Source: `self.light_position = 6` in `PicoboardGateway.__init__`. -/
def light_position : ℕ := 6

/-- Source: `self.sound_position = 7` in `PicoboardGateway.__init__`. -/
def sound_position : ℕ := 7

/-- Source: `self.button_position = 4` in `PicoboardGateway.__init__`. -/
def button_position : ℕ := 4

/-- Source: `self.analog_sensor_list = [1, 2, 3, 5, 7, 8]` in
`PicoboardGateway.__init__` (light is removed from this list; sound is not). -/
def analog_sensor_list : List ℕ := [1, 2, 3, 5, 7, 8]

/-- Source: `self.inverted_analog_list = [1, 2, 3, 5]` in
`PicoboardGateway.__init__`. -/
def inverted_analog_list : List ℕ := [1, 2, 3, 5]

/-- Source: `PicoboardGateway.analog_scaling(self, value, index)`.
The float expression
`(value - input_low) * ((new_value_high - new_value_low) / (input_high - input_low)) + new_value_low`
is modelled over ℚ and Python's `round` by `pythonRound`. -/
def analog_scaling (value : ℤ) (index : ℕ) : ℤ :=
  let bounds : ℚ × ℚ :=
    if index = light_position then (0, 100)
    else if index ∈ inverted_analog_list then (1023, 0)
    else (0, 1023)
  let input_low := bounds.1
  let input_high := bounds.2
  let new_value_low : ℚ := 0
  let new_value_high : ℚ := 100
  pythonRound (((value : ℚ) - input_low) *
      ((new_value_high - new_value_low) / (input_high - input_low)) + new_value_low)

/-- Source: `PicoboardGateway.run`, light branch (`i == self.light_position`):
`cooked = 100 - raw` when `raw < 25`, else
`cooked = round((1023 - raw) * (75 / 998))`.  This is the value that is then
passed through `analog_scaling(cooked, self.light_position)`. -/
def light_curve (raw : ℕ) : ℤ :=
  if raw < 25 then 100 - (raw : ℤ)
  else pythonRound ((1023 - (raw : ℚ)) * (75 / 998))

/-- Source: `PicoboardGateway.run`, sound branch (`i == self.sound_position`):
`n = max(0, raw - 18)`; `cooked = int(n / 2)` when `n < 50`, else
`cooked = 25 + min(75, int((n - 50) * (75 / 580)))`.  Python's `int(...)`
truncates toward zero; both arguments are nonnegative here, so it is floor. -/
def sound_curve (raw : ℕ) : ℤ :=
  let n : ℤ := max 0 ((raw : ℤ) - 18)
  if n < 50 then ((n : ℚ) / 2).floor
  else 25 + min 75 ((((n : ℚ) - 50) * (75 / 580)).floor)

/-- Source: `PicoboardGateway.run`, button branch (`i == self.button_position`):
`cooked = int(not raw_sensor_value)`; Python truthiness gives 1 exactly when
the raw value is 0. -/
def button_cooked (raw : ℕ) : ℤ :=
  if raw = 0 then 1 else 0

/-- Source: `PicoboardGateway.run`:
`raw_sensor_value = ((int(self.data_packet[2 * i]) & 7) << 7) + int(self.data_packet[2 * i + 1])`.
A frame is modelled as a function from byte index to byte value. -/
def raw_sensor_value (f : ℕ → ℕ) (i : ℕ) : ℕ :=
  ((f (2 * i)) &&& 7) <<< 7 + f (2 * i + 1)

/-- Source: `PicoboardGateway.run`:
`pico_channel = (int(self.data_packet[0]) - 128) >> 3`.  Python's arithmetic
right shift by 3 on a possibly negative integer is floor division by 8. -/
def pico_channel (f : ℕ → ℕ) : ℤ :=
  ((f 0 : ℤ) - 128).fdiv 8

/-- Source: the body of `for i in range(9)` in `PicoboardGateway.run` for
`i` in 1..8, carrying the Python variable `cooked` (argument `c`) across
iterations.  The `elif` chain assigns `cooked` for the light, sound and button
positions; afterwards `if i in self.analog_sensor_list` overwrites `cooked`
with `analog_scaling(raw_sensor_value, i)` (this list contains the sound
position 7, so the sound curve value is always overwritten). -/
def stepCooked (f : ℕ → ℕ) (i : ℕ) (c : ℤ) : ℤ :=
  let raw := raw_sensor_value f i
  let c1 : ℤ :=
    if i = light_position then analog_scaling (light_curve raw) light_position
    else if i = sound_position then sound_curve raw
    else if i = button_position then button_cooked raw
    else c
  if i ∈ analog_sensor_list then analog_scaling (raw : ℤ) i else c1

/-- Source: `PicoboardGateway.run`, the eight appends
`self.payload['report'].append(cooked)` for `i` in 1..8, in loop order.
`c0` is the value of `cooked` before iteration 1 (the entry-0 raw value when
entry 0 validated, irrelevant otherwise since every position overwrites it). -/
def decodeEntries (f : ℕ → ℕ) (c0 : ℤ) : List ℤ :=
  let c1 := stepCooked f 1 c0
  let c2 := stepCooked f 2 c1
  let c3 := stepCooked f 3 c2
  let c4 := stepCooked f 4 c3
  let c5 := stepCooked f 5 c4
  let c6 := stepCooked f 6 c5
  let c7 := stepCooked f 7 c6
  let c8 := stepCooked f 8 c7
  [c1, c2, c3, c4, c5, c6, c7, c8]

/-- Source: the `for i in range(9)` loop of `PicoboardGateway.run` applied to
one 18-byte packet: the report list built for this cycle.
At `i == 0`: when the channel id is neither 15 nor 0 the code executes
`continue` (skipping only entry 0; entries 1..8 are still processed); when the
channel is valid but `self.data_packet[1] != 4` it executes `break` (report
stays empty); otherwise `cooked` is set to the entry-0 raw value and entries
1..8 are processed. -/
def decodeFrame (f : ℕ → ℕ) : List ℤ :=
  let ch := pico_channel f
  if ch ≠ 15 ∧ ch ≠ 0 then decodeEntries f 0
  else if f 1 ≠ 4 then []
  else decodeEntries f (raw_sensor_value f 0 : ℤ)

/-- Source: one iteration of the `while True` loop of `PicoboardGateway.run`
after the 18 bytes arrived: the decode loop runs, then
`self.publish_payload(self.payload, self.publisher_topic)` executes
unconditionally (exactly one publish per cycle), then the accumulator is reset
by `self.payload = {'report': []}`.  The result is (list of published report
lists, accumulator after the cycle); `payload` is the accumulator the cycle
starts with. -/
def pollCycle (f : ℕ → ℕ) (payload : List ℤ) : List (List ℤ) × List ℤ :=
  ([payload ++ decodeFrame f], [])

/-- Constant `pigpio.INPUT` (value 0 in the pigpio library). -/
def INPUT : ℕ := 0

/-- Constant `pigpio.OUTPUT` (value 1 in the pigpio library). -/
def OUTPUT : ℕ := 1

/-- Model of `pi.set_mode(pin, mode)`: update the map of GPIO modes. -/
def set_mode (g : ℕ → ℕ) (pin mode : ℕ) : ℕ → ℕ :=
  fun p => if p = pin then mode else g p

/-- State of a `Sonar` object together with the GPIO mode map `pi`. -/
structure Sonar where
  pi : ℕ → ℕ
  trig : ℕ
  echo : ℕ
  trigMode : ℕ
  echoMode : ℕ
  inited : Bool

/-- Source: `Sonar.__init__(self, pi, trigger, echo)`: record the current
modes of both pins, then set trigger to OUTPUT and echo to INPUT, and set
`self._inited = True`. -/
def Sonar.init (g : ℕ → ℕ) (trigger echo : ℕ) : Sonar :=
  let trigMode := g trigger
  let echoMode := g echo
  let g1 := set_mode g trigger OUTPUT
  let g2 := set_mode g1 echo INPUT
  { pi := g2, trig := trigger, echo := echo,
    trigMode := trigMode, echoMode := echoMode, inited := true }

/-- Source: `Sonar.cancel(self)`: if `self._inited`, clear the flag and
restore both pins to their recorded modes; otherwise do nothing.  The second
component is the list of `set_mode(pin, mode)` calls issued by this call. -/
def Sonar.cancel (s : Sonar) : Sonar × List (ℕ × ℕ) :=
  if s.inited then
    let g1 := set_mode s.pi s.trig s.trigMode
    let g2 := set_mode g1 s.echo s.echoMode
    ({ s with pi := g2, inited := false }, [(s.trig, s.trigMode), (s.echo, s.echoMode)])
  else (s, [])

/-- Source: the second `while` loop of `Sonar.read` (echo high, waiting for
the falling edge), with `t1` the timestamp taken at the rising edge.  Each
iteration consumes one echo-line level and, if the level is high, one
timestamp `t5`; `return -2` when `t5 - t1 > 0.03`.  On a low level the next
timestamp is `t2` and the result is `((t2 - t1) * 340 / 2) * 100`. -/
def sonarReadEcho (t1 : ℚ) : List Bool → List ℚ → Option ℚ
  | [], _ => none
  | true :: ls, t5 :: ts =>
      if t5 - t1 > 3/100 then some (-2) else sonarReadEcho t1 ls ts
  | true :: _, [] => none
  | false :: _, t2 :: _ => some (((t2 - t1) * 340 / 2) * 100)
  | false :: _, [] => none

/-- Source: the first `while` loop of `Sonar.read` (waiting for the rising
edge), with `t3` the timestamp taken after the trigger pulse.  Each iteration
consumes one echo-line level and, if the level is low, one timestamp `t4`;
`return -1` when `t4 - t3 > 0.03`.  On a high level the next timestamp is
`t1` and the second loop runs. -/
def sonarReadWait (t3 : ℚ) : List Bool → List ℚ → Option ℚ
  | [], _ => none
  | true :: ls, t1 :: ts => sonarReadEcho t1 ls ts
  | true :: _, [] => none
  | false :: ls, t4 :: ts =>
      if t4 - t3 > 3/100 then some (-1) else sonarReadWait t3 ls ts
  | false :: _, [] => none

/-- Source: `Sonar.read(self)` after the trigger pulse, over an explicit
trace: `levels` are the successive values returned by `pi.read(self._echo)`
and `times` the successive values returned by `time.time()`; `t3` is the
timestamp taken right after `gpio_trigger`.  `none` means the trace was too
short to determine the result. -/
def Sonar.read (t3 : ℚ) (levels : List Bool) (times : List ℚ) : Option ℚ :=
  sonarReadWait t3 levels times

set_option maxRecDepth 40000

lemma ratFloor_eq_intFloor (q : ℚ) : q.floor = ⌊q⌋ := by
  rw [Rat.floor_def' q]
  exact Rat.floor_def.symm

lemma pythonRound_intCast (n : ℤ) : pythonRound (n : ℚ) = n := by
  unfold pythonRound
  rw [ratFloor_eq_intFloor, Int.floor_intCast]
  norm_num

lemma analog_scaling_light (v : ℤ) : analog_scaling v light_position = v := by
  show pythonRound (((v : ℚ) - 0) * ((100 - 0) / (100 - 0)) + 0) = v
  have h : ((v : ℚ) - 0) * ((100 - 0) / (100 - 0)) + 0 = (v : ℚ) := by norm_num
  rw [h, pythonRound_intCast]

lemma analog_scaling_generic (v : ℤ) :
    analog_scaling v 8 = pythonRound ((v : ℚ) * (100 / 1023)) := by
  show pythonRound (((v : ℚ) - 0) * ((100 - 0) / (1023 - 0)) + 0) = _
  have h : ((v : ℚ) - 0) * ((100 - 0) / (1023 - 0)) + 0 = (v : ℚ) * (100 / 1023) := by
    norm_num
  rw [h]

lemma analog_scaling_inverted (v : ℤ) :
    analog_scaling v 1 = pythonRound (((v : ℚ) - 1023) * (100 / (0 - 1023)) + 0) := by
  show pythonRound (((v : ℚ) - 1023) * ((100 - 0) / (0 - 1023)) + 0) = _
  norm_num

lemma analog_scaling_generic_range :
    ∀ r : ℕ, r ≤ 1023 → 0 ≤ analog_scaling r 8 ∧ analog_scaling r 8 ≤ 100 := by
  with_unfolding_all decide

lemma analog_scaling_generic_adj :
    ∀ r : ℕ, r ≤ 1022 → analog_scaling r 8 ≤ analog_scaling ((r + 1 : ℕ) : ℤ) 8 := by
  with_unfolding_all decide

lemma analog_scaling_inverted_range :
    ∀ r : ℕ, r ≤ 1023 → 0 ≤ analog_scaling r 1 ∧ analog_scaling r 1 ≤ 100 := by
  with_unfolding_all decide

lemma analog_scaling_inverted_adj :
    ∀ r : ℕ, r ≤ 1022 → analog_scaling ((r + 1 : ℕ) : ℤ) 1 ≤ analog_scaling r 1 := by
  with_unfolding_all decide

lemma light_curve_range :
    ∀ r : ℕ, r ≤ 1023 → 0 ≤ light_curve r ∧ light_curve r ≤ 100 := by
  with_unfolding_all decide

lemma mono_of_adjacent (g : ℕ → ℤ) (h : ∀ r : ℕ, r ≤ 1022 → g r ≤ g (r + 1)) :
    ∀ r s : ℕ, r ≤ s → s ≤ 1023 → g r ≤ g s := by
  intro r s hrs hs
  induction s with
  | zero =>
      have hr0 : r = 0 := Nat.le_zero.mp hrs
      rw [hr0]
  | succ n ih =>
      rcases Nat.eq_or_lt_of_le hrs with h1 | h1
      · rw [h1]
      · have hrn : r ≤ n := Nat.lt_succ_iff.mp h1
        exact le_trans (ih hrn (by omega)) (h n (by omega))

lemma anti_of_adjacent (g : ℕ → ℤ) (h : ∀ r : ℕ, r ≤ 1022 → g (r + 1) ≤ g r) :
    ∀ r s : ℕ, r ≤ s → s ≤ 1023 → g s ≤ g r := by
  intro r s hrs hs
  induction s with
  | zero =>
      have hr0 : r = 0 := Nat.le_zero.mp hrs
      rw [hr0]
  | succ n ih =>
      rcases Nat.eq_or_lt_of_le hrs with h1 | h1
      · rw [h1]
      · have hrn : r ≤ n := Nat.lt_succ_iff.mp h1
        exact le_trans (h n (by omega)) (ih hrn (by omega))

/-- C3: for every raw light value r in [0,1023], the published light-channel
output (the light pre-transform followed by `analog_scaling` at the light
position, which is an identity scale) equals: 100 − r when r < 25, and
round((1023 − r) × 75/998) otherwise; in particular r = 0 gives 100, r = 24
gives 76, r = 25 gives 75, and r = 1023 gives 0. -/
theorem c3_light_output (r : ℕ) (h : r ≤ 1023) :
    analog_scaling (light_curve r) light_position
        = (if r < 25 then 100 - (r : ℤ) else pythonRound ((1023 - (r : ℚ)) * (75 / 998)))
    ∧ analog_scaling (light_curve 0) light_position = 100
    ∧ analog_scaling (light_curve 24) light_position = 76
    ∧ analog_scaling (light_curve 25) light_position = 75
    ∧ analog_scaling (light_curve 1023) light_position = 0 := by
  refine ⟨?_, ?_, ?_, ?_, ?_⟩
  · rw [analog_scaling_light]
    rfl
  all_goals with_unfolding_all decide

/-- Witness for C3 at r = 25. -/
theorem c3_light_output_witness :
    (25 : ℕ) ≤ 1023 ∧
      analog_scaling (light_curve 25) light_position
        = (if (25 : ℕ) < 25 then 100 - ((25 : ℕ) : ℤ)
           else pythonRound ((1023 - ((25 : ℕ) : ℚ)) * (75 / 998))) :=
  ⟨by decide, (c3_light_output 25 (by decide)).1⟩

/-- C4: for every raw value r in [0,1023] on a non-inverted, non-special
channel (the slider position 8 and the generic path taken at the sound
position 7), `analog_scaling` returns round(r × 100/1023), and it is
monotonically non-decreasing in r. -/
theorem c4_generic_scaling :
    (∀ r : ℕ, r ≤ 1023 →
        analog_scaling r sound_position = pythonRound ((r : ℚ) * (100 / 1023))
          ∧ analog_scaling r 8 = pythonRound ((r : ℚ) * (100 / 1023)))
    ∧ (∀ r s : ℕ, r ≤ s → s ≤ 1023 →
        analog_scaling r sound_position ≤ analog_scaling s sound_position
          ∧ analog_scaling r 8 ≤ analog_scaling s 8) := by
  have h78 : ∀ v : ℤ, analog_scaling v sound_position = analog_scaling v 8 :=
    fun v => rfl
  constructor
  · intro r hr
    have e : analog_scaling ((r : ℕ) : ℤ) 8 = pythonRound ((r : ℚ) * (100 / 1023)) := by
      rw [analog_scaling_generic]
      norm_num
    exact ⟨by rw [h78, e], e⟩
  · intro r s hrs hs
    have m := mono_of_adjacent (fun n : ℕ => analog_scaling (n : ℤ) 8)
      analog_scaling_generic_adj r s hrs hs
    exact ⟨by rw [h78, h78]; exact m, m⟩

/-- Witness for C4 at r = 68 and the pair (r, s) = (68, 1023). -/
theorem c4_generic_scaling_witness :
    ((68 : ℕ) ≤ 1023 ∧ analog_scaling (68 : ℕ) 8 = pythonRound (((68 : ℕ) : ℚ) * (100 / 1023)))
    ∧ ((68 : ℕ) ≤ 1023 ∧ analog_scaling (68 : ℕ) 8 ≤ analog_scaling (1023 : ℕ) 8) :=
  ⟨⟨by decide, (c4_generic_scaling.1 68 (by decide)).2⟩,
   ⟨by decide, (c4_generic_scaling.2 68 1023 (by decide) (by decide)).2⟩⟩

/-- C5: for every raw value r in [0,1023] on an inverted channel (positions
1, 2, 3, 5 — sensors D, C, B, A), `analog_scaling` computes
round((r − 1023) × (100/(0 − 1023)) + 0); it is monotonically non-increasing
in r, with output 100 at r = 0 and output 0 at r = 1023. -/
theorem c5_inverted_scaling :
    (∀ r : ℕ, r ≤ 1023 → ∀ i ∈ inverted_analog_list,
        analog_scaling r i = pythonRound (((r : ℚ) - 1023) * (100 / (0 - 1023)) + 0))
    ∧ (∀ r s : ℕ, r ≤ s → s ≤ 1023 → ∀ i ∈ inverted_analog_list,
        analog_scaling s i ≤ analog_scaling r i)
    ∧ (∀ i ∈ inverted_analog_list,
        analog_scaling 0 i = 100 ∧ analog_scaling 1023 i = 0) := by
  have hsame : ∀ v : ℤ, ∀ i ∈ inverted_analog_list, analog_scaling v i = analog_scaling v 1 := by
    intro v i hi
    fin_cases hi <;> rfl
  refine ⟨?_, ?_, ?_⟩
  · intro r hr i hi
    rw [hsame r i hi, analog_scaling_inverted]
    norm_num
  · intro r s hrs hs i hi
    rw [hsame s i hi, hsame r i hi]
    exact anti_of_adjacent (fun n : ℕ => analog_scaling (n : ℤ) 1)
      analog_scaling_inverted_adj r s hrs hs
  · intro i hi
    rw [hsame 0 i hi, hsame 1023 i hi]
    constructor <;> with_unfolding_all decide

/-- Witness for C5 at r = 0, the pair (r, s) = (0, 1023), and channel 1. -/
theorem c5_inverted_scaling_witness :
    ((0 : ℕ) ≤ 1023 ∧ (1 : ℕ) ∈ inverted_analog_list
      ∧ analog_scaling (0 : ℕ) 1 = pythonRound ((((0 : ℕ) : ℚ) - 1023) * (100 / (0 - 1023)) + 0))
    ∧ ((0 : ℕ) ≤ (1023 : ℕ) ∧ analog_scaling (1023 : ℕ) 1 ≤ analog_scaling (0 : ℕ) 1)
    ∧ (analog_scaling 0 1 = 100 ∧ analog_scaling 1023 1 = 0) :=
  ⟨⟨by decide, by decide, c5_inverted_scaling.1 0 (by decide) 1 (by decide)⟩,
   ⟨by decide, c5_inverted_scaling.2.1 0 1023 (by decide) (by decide) 1 (by decide)⟩,
   c5_inverted_scaling.2.2 1 (by decide)⟩

lemma button_cooked_range (r : ℕ) : 0 ≤ button_cooked r ∧ button_cooked r ≤ 100 := by
  unfold button_cooked
  split <;> norm_num

/-- C1: the sound curve is computed by the code but its value is dead: the
sound position 7 is a member of `analog_sensor_list`, so the loop immediately
overwrites `cooked` with the generic `analog_scaling`.  At raw sound value 68
the curve yields 25 but the decoded frame publishes round(68 × 100/1023) = 7.
The curve itself does satisfy the claimed values (raw 18 → 0, raw 68 → 25,
raw 1023 → 100); what fails is that the published output is not the curve. -/
theorem c1_sound_curve_dead :
    sound_curve 18 = 0 ∧ sound_curve 68 = 25 ∧ sound_curve 1023 = 100
    ∧ sound_position ∈ analog_sensor_list
    ∧ stepCooked (fun j => if j = 15 then 68 else 0) sound_position 0
        = analog_scaling 68 sound_position
    ∧ decodeFrame (fun j => if j = 0 then 128 else if j = 1 then 4 else if j = 15 then 68 else 0)
        = [100, 100, 100, 1, 100, 100, 7, 0]
    ∧ analog_scaling 68 sound_position = 7
    ∧ sound_curve 68 ≠ 7 := by
  with_unfolding_all decide

/-- C2 counterexample: a frame whose entry-0 channel id is 7 (first byte 184)
is not discarded: the cycle publishes exactly one message, and that message
carries a full 8-element vector decoded from entries 1..8. -/
theorem c2_counterexample :
    pico_channel (fun j => if j = 0 then 184 else 0) = 7
    ∧ (pollCycle (fun j => if j = 0 then 184 else 0) []).1.length = 1
    ∧ pollCycle (fun j => if j = 0 then 184 else 0) []
        = ([[100, 100, 100, 1, 100, 100, 0, 0]], []) := by
  with_unfolding_all decide

/-- C2 amended: entry-0 validation never suppresses the publish.  Every poll
cycle publishes exactly one message.  When the channel id is invalid (neither
15 nor 0) the `continue` skips only entry 0 and a full 8-element vector is
still decoded and published; when the channel id is valid but the id value is
not 4, the `break` aborts decoding and a message with an empty report list is
published. -/
theorem c2_amended_always_publishes (f : ℕ → ℕ) (p : List ℤ) :
    (pollCycle f p).1.length = 1
    ∧ (pico_channel f ≠ 15 ∧ pico_channel f ≠ 0 →
        (pollCycle f []).1 = [decodeEntries f 0] ∧ (decodeEntries f 0).length = 8)
    ∧ ((pico_channel f = 15 ∨ pico_channel f = 0) → f 1 ≠ 4 →
        (pollCycle f []).1 = [[]]) := by
  refine ⟨rfl, ?_, ?_⟩
  · intro h
    unfold pollCycle decodeFrame
    rw [if_pos h]
    exact ⟨rfl, rfl⟩
  · intro h hid
    unfold pollCycle decodeFrame
    rcases h with h | h <;> simp [h, hid]

/-- Witness for C2 amended, at the channel-7 frame of the counterexample. -/
theorem c2_amended_always_publishes_witness :
    (pico_channel (fun j => if j = 0 then 184 else 0) ≠ 15
      ∧ pico_channel (fun j => if j = 0 then 184 else 0) ≠ 0)
    ∧ (pollCycle (fun j => if j = 0 then 184 else 0) []).1
        = [decodeEntries (fun j => if j = 0 then 184 else 0) 0] :=
  ⟨by decide,
   ((c2_amended_always_publishes (fun j => if j = 0 then 184 else 0) []).2.1
     (by decide)).1⟩

/-- C6: a frame whose entry 0 validates (channel id 0 or 15, id value 4) and
whose low bytes carry 7 bits decodes to exactly 8 integers, each in [0,100],
in positional order D, C, B, button, A, light, sound, slider, where entry i's
raw value is ((frame[2i] & 7) << 7) + frame[2i+1]. -/
theorem c6_decode_wellformed (f : ℕ → ℕ)
    (hlow : ∀ i : ℕ, i ≤ 8 → 1 ≤ i → f (2 * i + 1) < 128)
    (hch : pico_channel f = 0 ∨ pico_channel f = 15)
    (hid : f 1 = 4) :
    decodeFrame f =
      [analog_scaling (raw_sensor_value f 1) 1,
       analog_scaling (raw_sensor_value f 2) 2,
       analog_scaling (raw_sensor_value f 3) 3,
       button_cooked (raw_sensor_value f 4),
       analog_scaling (raw_sensor_value f 5) 5,
       analog_scaling (light_curve (raw_sensor_value f 6)) light_position,
       analog_scaling (raw_sensor_value f 7) 7,
       analog_scaling (raw_sensor_value f 8) 8]
    ∧ (decodeFrame f).length = 8
    ∧ (∀ x ∈ decodeFrame f, 0 ≤ x ∧ x ≤ 100)
    ∧ (∀ i : ℕ, raw_sensor_value f i = ((f (2 * i)) &&& 7) <<< 7 + f (2 * i + 1)) := by
  have hdec : decodeFrame f = decodeEntries f (raw_sensor_value f 0 : ℤ) := by
    unfold decodeFrame
    rcases hch with h | h <;> simp [h, hid]
  have hlist : decodeEntries f (raw_sensor_value f 0 : ℤ) =
      [analog_scaling (raw_sensor_value f 1) 1,
       analog_scaling (raw_sensor_value f 2) 2,
       analog_scaling (raw_sensor_value f 3) 3,
       button_cooked (raw_sensor_value f 4),
       analog_scaling (raw_sensor_value f 5) 5,
       analog_scaling (light_curve (raw_sensor_value f 6)) light_position,
       analog_scaling (raw_sensor_value f 7) 7,
       analog_scaling (raw_sensor_value f 8) 8] := rfl
  have hraw : ∀ i : ℕ, i ≤ 8 → 1 ≤ i → raw_sensor_value f i ≤ 1023 := by
    intro i h8 h1
    have hand : (f (2 * i)) &&& 7 ≤ 7 := Nat.and_le_right
    have hl := hlow i h8 h1
    have hs : ((f (2 * i)) &&& 7) <<< 7 = ((f (2 * i)) &&& 7) * 128 := by
      rw [Nat.shiftLeft_eq]
    unfold raw_sensor_value
    omega
  have h2 : ∀ v : ℤ, analog_scaling v 2 = analog_scaling v 1 := fun v => rfl
  have h3 : ∀ v : ℤ, analog_scaling v 3 = analog_scaling v 1 := fun v => rfl
  have h5 : ∀ v : ℤ, analog_scaling v 5 = analog_scaling v 1 := fun v => rfl
  have h7 : ∀ v : ℤ, analog_scaling v 7 = analog_scaling v 8 := fun v => rfl
  refine ⟨hdec.trans hlist, by rw [hdec, hlist]; rfl, ?_, fun i => rfl⟩
  intro x hx
  rw [hdec, hlist] at hx
  simp only [List.mem_cons, List.not_mem_nil, or_false] at hx
  rcases hx with rfl | rfl | rfl | rfl | rfl | rfl | rfl | rfl
  · exact analog_scaling_inverted_range _ (hraw 1 (by norm_num) (by norm_num))
  · rw [h2]
    exact analog_scaling_inverted_range _ (hraw 2 (by norm_num) (by norm_num))
  · rw [h3]
    exact analog_scaling_inverted_range _ (hraw 3 (by norm_num) (by norm_num))
  · exact button_cooked_range _
  · rw [h5]
    exact analog_scaling_inverted_range _ (hraw 5 (by norm_num) (by norm_num))
  · rw [analog_scaling_light]
    exact light_curve_range _ (hraw 6 (by norm_num) (by norm_num))
  · rw [h7]
    exact analog_scaling_generic_range _ (hraw 7 (by norm_num) (by norm_num))
  · exact analog_scaling_generic_range _ (hraw 8 (by norm_num) (by norm_num))

/-- Witness for C6 at the frame with bytes 128, 4 and zeros. -/
theorem c6_decode_wellformed_witness :
    (∀ i : ℕ, i ≤ 8 → 1 ≤ i →
      (fun j => if j = 0 then 128 else if j = 1 then 4 else 0 : ℕ → ℕ) (2 * i + 1) < 128)
    ∧ (decodeFrame (fun j => if j = 0 then 128 else if j = 1 then 4 else 0)).length = 8 :=
  ⟨by decide,
   (c6_decode_wellformed (fun j => if j = 0 then 128 else if j = 1 then 4 else 0)
     (by decide) (by decide) (by decide)).2.1⟩

/-- C7: in a decoded frame the button entry (report index 3) is the logical
negation of its raw value: raw 0 publishes 1 and any nonzero raw publishes 0. -/
theorem c7_button_inversion (f : ℕ → ℕ)
    (hch : pico_channel f = 0 ∨ pico_channel f = 15) (hid : f 1 = 4) :
    (decodeFrame f)[3]? = some (button_cooked (raw_sensor_value f button_position))
    ∧ button_cooked 0 = 1
    ∧ (∀ r : ℕ, r ≠ 0 → button_cooked r = 0) := by
  have hdec : decodeFrame f = decodeEntries f (raw_sensor_value f 0 : ℤ) := by
    unfold decodeFrame
    rcases hch with h | h <;> simp [h, hid]
  refine ⟨by rw [hdec]; rfl, rfl, ?_⟩
  intro r hr
  unfold button_cooked
  simp [hr]

/-- Witness for C7 at the frame with bytes 128, 4 and zeros. -/
theorem c7_button_inversion_witness :
    pico_channel (fun j => if j = 0 then 128 else if j = 1 then 4 else 0) = 0
    ∧ (decodeFrame (fun j => if j = 0 then 128 else if j = 1 then 4 else 0))[3]?
        = some (button_cooked
            (raw_sensor_value (fun j => if j = 0 then 128 else if j = 1 then 4 else 0)
              button_position)) :=
  ⟨by decide,
   (c7_button_inversion (fun j => if j = 0 then 128 else if j = 1 then 4 else 0)
     (by decide) (by decide)).1⟩

/-- C10: a frame whose entry-0 channel id is 0 or 15 but whose id value is
not 4 still produces exactly one publish that cycle, with an empty report
list, and the accumulator is reset afterwards. -/
theorem c10_invalid_id_publishes_empty (f : ℕ → ℕ)
    (hch : pico_channel f = 0 ∨ pico_channel f = 15) (hid : f 1 ≠ 4) :
    pollCycle f [] = ([[]], []) := by
  unfold pollCycle decodeFrame
  rcases hch with h | h <;> simp [h, hid]

/-- Witness for C10 at the frame with first byte 128 and zeros elsewhere
(channel id 0, id value 0). -/
theorem c10_invalid_id_publishes_empty_witness :
    (pico_channel (fun j => if j = 0 then 128 else 0) = 0
      ∧ (fun j => if j = 0 then 128 else 0 : ℕ → ℕ) 1 ≠ 4)
    ∧ pollCycle (fun j => if j = 0 then 128 else 0) [] = ([[]], []) :=
  ⟨⟨by decide, by decide⟩,
   c10_invalid_id_publishes_empty (fun j => if j = 0 then 128 else 0)
     (Or.inl (by decide)) (by decide)⟩

lemma sonarWait_all_false (t3 : ℚ) :
    ∀ ts : List ℚ, (∃ t ∈ ts, t - t3 > 3/100) →
      sonarReadWait t3 (List.replicate ts.length false) ts = some (-1) := by
  intro ts
  induction ts with
  | nil =>
      rintro ⟨t, ht, _⟩
      exact absurd ht (List.not_mem_nil t)
  | cons u us ih =>
      rintro ⟨t, ht, hgt⟩
      rw [List.length_cons, List.replicate_succ]
      by_cases hu : u - t3 > 3/100
      · simp [sonarReadWait, hu]
      · have hmem : t ∈ us := by
          rcases List.mem_cons.mp ht with rfl | hm
          · exact absurd hgt hu
          · exact hm
        simp only [sonarReadWait, if_neg hu]
        exact ih ⟨t, hmem, hgt⟩

lemma sonarEcho_all_true (t1 : ℚ) :
    ∀ us : List ℚ, (∃ t ∈ us, t - t1 > 3/100) →
      sonarReadEcho t1 (List.replicate us.length true) us = some (-2) := by
  intro us
  induction us with
  | nil =>
      rintro ⟨t, ht, _⟩
      exact absurd ht (List.not_mem_nil t)
  | cons u us ih =>
      rintro ⟨t, ht, hgt⟩
      rw [List.length_cons, List.replicate_succ]
      by_cases hu : u - t1 > 3/100
      · simp [sonarReadEcho, hu]
      · have hmem : t ∈ us := by
          rcases List.mem_cons.mp ht with rfl | hm
          · exact absurd hgt hu
          · exact hm
        simp only [sonarReadEcho, if_neg hu]
        exact ih ⟨t, hmem, hgt⟩

/-- C8: the distance timer returns sentinel -1 when the echo line never reads
high and some sampled time exceeds the trigger time by more than 30 ms;
it returns sentinel -2 when the line reads high but never low again and some
sampled time exceeds the rising-edge time t1 by more than 30 ms; when the
line rises (timestamp t1) and then falls (timestamp t2) it returns
((t2 − t1) × 340 / 2) × 100 cm, which is 170 for a 0.01 s echo; the two
sentinels are distinct. -/
theorem c8_sonar_read (t3 t1 : ℚ) (ts us : List ℚ)
    (h1 : ∃ t ∈ ts, t - t3 > 3/100) (h2 : ∃ t ∈ us, t - t1 > 3/100) :
    Sonar.read t3 (List.replicate ts.length false) ts = some (-1)
    ∧ Sonar.read t3 (true :: List.replicate us.length true) (t1 :: us) = some (-2)
    ∧ (∀ t2 : ℚ, Sonar.read t3 [true, false] [t1, t2]
        = some (((t2 - t1) * 340 / 2) * 100))
    ∧ (∀ t0 : ℚ, Sonar.read t3 [true, false] [t0, t0 + 1/100] = some 170)
    ∧ (-1 : ℚ) ≠ -2 := by
  refine ⟨sonarWait_all_false t3 ts h1, ?_, fun t2 => rfl, ?_, by norm_num⟩
  · show sonarReadEcho t1 (List.replicate us.length true) us = some (-2)
    exact sonarEcho_all_true t1 us h2
  · intro t0
    have e : ((t0 + 1/100 - t0) * 340 / 2) * 100 = (170 : ℚ) := by ring
    calc Sonar.read t3 [true, false] [t0, t0 + 1/100]
        = some (((t0 + 1/100 - t0) * 340 / 2) * 100) := rfl
      _ = some 170 := by rw [e]

/-- Witness for C8 with trigger time 0, rise time 0, and single samples at
time 1. -/
theorem c8_sonar_read_witness :
    ((∃ t ∈ [(1 : ℚ)], t - 0 > 3/100) ∧ (∃ t ∈ [(1 : ℚ)], t - 0 > 3/100))
    ∧ Sonar.read 0 (List.replicate [(1 : ℚ)].length false) [(1 : ℚ)] = some (-1) :=
  ⟨⟨⟨1, by norm_num⟩, ⟨1, by norm_num⟩⟩,
   (c8_sonar_read 0 0 [(1 : ℚ)] [(1 : ℚ)] ⟨1, by norm_num⟩ ⟨1, by norm_num⟩).1⟩

/-- C9: the first `cancel` on an initialized sonar restores both GPIO lines
to the modes recorded before acquisition, a second `cancel` issues no
`set_mode` calls and returns the state unchanged, so the GPIO modes after two
calls are identical to those after one. -/
theorem c9_cancel_idempotent (g : ℕ → ℕ) (trigger echo : ℕ) :
    ((Sonar.cancel (Sonar.init g trigger echo)).1.pi trigger = g trigger
      ∧ (Sonar.cancel (Sonar.init g trigger echo)).1.pi echo = g echo)
    ∧ Sonar.cancel (Sonar.cancel (Sonar.init g trigger echo)).1
        = ((Sonar.cancel (Sonar.init g trigger echo)).1, [])
    ∧ (Sonar.cancel (Sonar.cancel (Sonar.init g trigger echo)).1).1.pi
        = (Sonar.cancel (Sonar.init g trigger echo)).1.pi := by
  refine ⟨⟨?_, ?_⟩, rfl, rfl⟩
  · by_cases h : trigger = echo
    · simp [Sonar.cancel, Sonar.init, set_mode, h]
    · simp [Sonar.cancel, Sonar.init, set_mode, h]
  · simp [Sonar.cancel, Sonar.init, set_mode]

end S3Extend
